import Mathlib

/-
Verification of the Media-ClearMind/server interview-submission pipeline.

The embedding below translates the JavaScript source into Lean:
  * `updateEmotionAverage` (interview routes, full pipeline variant) becomes
    `computeEmotionAverage` plus `upsertEmotionAverage`;
  * the `POST /submit` transactional handler becomes `submit`, with an explicit
    transaction snapshot and a fault oracle deciding which awaited store
    operation fails;
  * the `GET /current/:interview_count` and `GET /history` analysis routes
    become `getCurrentAnalysis` and `historyGroups`;
  * the `DELETE /account` handler becomes `deleteAccount`.
JavaScript numbers are modelled as rationals; NaN (which arises from 0/0 on an
empty sample list) is modelled as `none`.  `Number(x.toFixed(d))` on the
nonnegative values handled here is half-up rounding to `d` decimals, modelled
by `roundTo d`.
-/

namespace ClearMind

/-- Half-up rounding to `d` decimal places, the behaviour of
`Number(x.toFixed(d))` on the nonnegative magnitudes this server handles. -/
def roundTo (d : Nat) (x : ℚ) : ℚ :=
  ((⌊x * (10 : ℚ) ^ d + 1 / 2⌋ : ℤ) : ℚ) / (10 : ℚ) ^ d

/-- The seven emotion keys of the analyzer output
(`angry/disgust/fear/happy/neutral/sad/surprise`). -/
inductive EmotionKey
  | angry
  | disgust
  | fear
  | happy
  | neutral
  | sad
  | surprise
deriving DecidableEq, Repr

/-- A JavaScript emotion object: each of the seven expected keys is either
present with a rational value or absent (`none`), matching what
`Object.entries(result.emotion)` iterates over. -/
structure EmotionEntries where
  angry : Option ℚ
  disgust : Option ℚ
  fear : Option ℚ
  happy : Option ℚ
  neutral : Option ℚ
  sad : Option ℚ
  surprise : Option ℚ
deriving DecidableEq, Repr

namespace EmotionEntries

/-- Key lookup in an emotion object. -/
def get (e : EmotionEntries) : EmotionKey → Option ℚ
  | .angry => e.angry
  | .disgust => e.disgust
  | .fear => e.fear
  | .happy => e.happy
  | .neutral => e.neutral
  | .sad => e.sad
  | .surprise => e.surprise

/-- The empty emotion object `{}`, the initial accumulator of
`updateEmotionAverage`. -/
def empty : EmotionEntries := ⟨none, none, none, none, none, none, none⟩

end EmotionEntries

/-- One accumulation step of
`currentEmotions[emotion] = (currentEmotions[emotion] || 0) + value`:
an absent key in the sample contributes nothing, a present key adds its value
to the accumulator (which defaults to 0 when the key is still absent). -/
def addEntry (acc v : Option ℚ) : Option ℚ :=
  match v with
  | none => acc
  | some x => some (acc.getD 0 + x)

/-- Pointwise accumulation of one sample's emotion object into the running
totals, the body of the `forEach` over `Object.entries(result.emotion)`. -/
def accumEmotions (acc e : EmotionEntries) : EmotionEntries :=
  ⟨addEntry acc.angry e.angry, addEntry acc.disgust e.disgust,
   addEntry acc.fear e.fear, addEntry acc.happy e.happy,
   addEntry acc.neutral e.neutral, addEntry acc.sad e.sad,
   addEntry acc.surprise e.surprise⟩

/-- The first element of one analysis result's `result` array — the fields of
it that `updateEmotionAverage` reads: `face_confidence` and `emotion`.
The remaining analyzer fields (age, dominant labels, region) are passed
through unchanged by the server and are omitted. -/
structure FaceResult where
  face_confidence : ℚ
  emotion : EmotionEntries
deriving DecidableEq, Repr

/-- `totalConfidence += result.face_confidence` folded over all samples. -/
def totalConfidence (samples : List FaceResult) : ℚ :=
  samples.foldl (fun acc s => acc + s.face_confidence) 0

/-- The `currentEmotions` accumulator after the `forEach` over all samples. -/
def currentEmotions (samples : List FaceResult) : EmotionEntries :=
  samples.foldl (fun acc s => accumEmotions acc s.emotion) EmotionEntries.empty

/-- JavaScript division `x / n` where `n` is a length: `0 / 0` is `NaN`,
modelled as `none`. -/
def jsDiv (x : ℚ) (n : Nat) : Option ℚ :=
  if n = 0 then none else some (x / (n : ℚ))

/-- Per-key `averageEmotions[emotion] = Number((total / numResults).toFixed(3))`:
keys never seen stay absent, keys seen at least once are divided by the number
of samples and rounded to 3 decimals. -/
def averageEntries (e : EmotionEntries) (n : Nat) : EmotionEntries :=
  ⟨(e.angry).map (fun t => roundTo 3 (t / (n : ℚ))),
   (e.disgust).map (fun t => roundTo 3 (t / (n : ℚ))),
   (e.fear).map (fun t => roundTo 3 (t / (n : ℚ))),
   (e.happy).map (fun t => roundTo 3 (t / (n : ℚ))),
   (e.neutral).map (fun t => roundTo 3 (t / (n : ℚ))),
   (e.sad).map (fun t => roundTo 3 (t / (n : ℚ))),
   (e.surprise).map (fun t => roundTo 3 (t / (n : ℚ)))⟩

/-- The `newAverage` document built by `updateEmotionAverage` and `$set` into
the `emotion_averages` collection: keyed by `count` only (no user field, as in
the `emotionaverage.js` schema), with the averaged face confidence
(`none` models the `NaN` produced for an empty sample list), the averaged
emotion object, and the number of samples. -/
structure EmotionAvgDoc where
  count : Nat
  date : String
  face_confidence : Option ℚ
  emotion : EmotionEntries
  total_analyses : Nat
deriving DecidableEq, Repr

/-- The computational core of `updateEmotionAverage`: fold the samples'
confidences and emotion entries, divide by `analysisResults.length`, round the
confidence to 2 decimals (`averageConfidence.toFixed(2)`) and each emotion
average to 3 decimals (`.toFixed(3)`).  The function has no error path of its
own: the only `throw` in the source is the re-throw of a store error. -/
def computeEmotionAverage (samples : List FaceResult) (count : Nat)
    (today : String) : EmotionAvgDoc :=
  ⟨count, today, (jsDiv (totalConfidence samples) samples.length).map (roundTo 2),
   averageEntries (currentEmotions samples) samples.length, samples.length⟩

/-- `EmotionAverage.updateOne({ count }, { $set: newAverage }, { upsert: true })`:
replace the first document whose `count` matches, or insert the new document
when none matches. -/
def upsertEmotionAverage : List EmotionAvgDoc → EmotionAvgDoc → List EmotionAvgDoc
  | [], doc => [doc]
  | r :: rs, doc =>
    if r.count = doc.count then doc :: rs else r :: upsertEmotionAverage rs doc

/-- `EmotionAverage.findOne({ count })` — the current-session average lookup,
which filters by `count` alone and takes no user identity. -/
def findEmotionAverage (rows : List EmotionAvgDoc) (c : Nat) : Option EmotionAvgDoc :=
  rows.find? (fun r => r.count == c)

/-- One question-answer entry of the submission payload
(the full-pipeline variant carries a single top-level `score`, so the entry
itself is `{question, answer, order}`). -/
structure QA where
  question : String
  answer : String
  order : Int
deriving DecidableEq, Repr

/-- One element of `analysis_results`: a timestamp and the analyzer `result`
array (of which the server only ever reads index 0). -/
structure AnalysisResultIn where
  timestamp : Nat
  result : List FaceResult
deriving DecidableEq, Repr

/-- The parsed body of `POST /submit` in the full-pipeline variant. -/
structure SubmitPayload where
  questions_answers : List QA
  score : Int
  analysis_results : List AnalysisResultIn
deriving DecidableEq, Repr

/-- One express-validator rule bundle entry for a question-answer item:
`question`/`answer` non-empty, `order` an integer in `[1, 3]`. -/
def validQA (qa : QA) : Bool :=
  !(qa.question == "") && !(qa.answer == "") && decide (1 ≤ qa.order) && decide (qa.order ≤ 3)

/-- `validationRules.submission`: exactly 3 question-answer entries, each one
well-formed, `score` an integer in `[0, 100]`, and at least 1 analysis result
(`body('analysis_results').isArray({ min: 1 })`); the rule that each entry's
`result` is an array holds by typing here. -/
def validateSubmission (p : SubmitPayload) : Bool :=
  (p.questions_answers.length == 3) &&
  p.questions_answers.all validQA &&
  decide (0 ≤ p.score) && decide (p.score ≤ 100) &&
  (1 ≤ p.analysis_results.length)

/-- A `users` document: `_id` and the session counter `count`. -/
structure UserDoc where
  id : Nat
  count : Nat
deriving DecidableEq, Repr

/-- A `face_analysis` document as written by the submission pipeline:
`userId`, the session `count`, the client timestamp stored as
`serverTimestamp`, and the raw analyzer `analysis_result` array. -/
structure AnalysisDoc where
  userId : Nat
  count : Nat
  serverTimestamp : Nat
  analysis_result : List FaceResult
deriving DecidableEq, Repr

/-- An `interviews` document: user reference, per-user `interview_count`,
the (sorted) question-answer entries and the submitted score. -/
structure InterviewDoc where
  user_id : Nat
  interview_count : Nat
  questions_answers : List QA
  score : Int
deriving DecidableEq, Repr

/-- The collections touched by the submission pipeline. -/
structure DB where
  users : List UserDoc
  analyses : List AnalysisDoc
  interviews : List InterviewDoc
  emotion_averages : List EmotionAvgDoc
deriving DecidableEq, Repr

/-- Insert one entry into a list already sorted by ascending `order`. -/
def insertByOrder (qa : QA) : List QA → List QA
  | [] => [qa]
  | x :: xs => if qa.order ≤ x.order then qa :: x :: xs else x :: insertByOrder qa xs

/-- `questions_answers.sort((a, b) => a.order - b.order)`:
sort ascending by `order` (insertion sort; the comparator is a total
ascending numeric order). -/
def sortByOrder (l : List QA) : List QA := l.foldr insertByOrder []

/-- `User.findByIdAndUpdate(uid, { $inc: { count: 1 } })`: increment the
counter of the (unique) document whose `_id` matches; first match models
by-`_id` uniqueness. -/
def incUserCount : List UserDoc → Nat → List UserDoc
  | [], _ => []
  | u :: us, uid =>
    if u.id = uid then ⟨u.id, u.count + 1⟩ :: us else u :: incUserCount us uid

/-- Look a user up by `_id`. -/
def findUser (us : List UserDoc) (uid : Nat) : Option UserDoc :=
  us.find? (fun u => u.id == uid)

/-- The `new Analysis({...})` document built for one submitted analysis
result. -/
def mkAnalysisDoc (uid cnt : Nat) (a : AnalysisResultIn) : AnalysisDoc :=
  ⟨uid, cnt, a.timestamp, a.result⟩

/-- `analysis.result[0]` for every submitted analysis result:
`some` of the list of first elements when every `result` array is non-empty;
`none` when some `result` array is empty, in which case the JavaScript
handler dereferences `undefined` and the thrown error aborts the
transaction. -/
def headResults : List AnalysisResultIn → Option (List FaceResult)
  | [] => some []
  | a :: rest =>
    match a.result.head?, headResults rest with
    | some r, some rs => some (r :: rs)
    | _, _ => none

/-- The awaited store operations of the `/submit` handler, in program order;
a fault oracle over these models a store-level failure at that operation. -/
inductive SubmitStep
  | incCounter
  | upsertAvg
  | saveAnalysis (i : Nat)
  | saveInterview
  | commitTxn
deriving DecidableEq, Repr

/-- The success payload of the `/submit` response
(`interview_count` and the echoed `score`; the object ids are omitted). -/
structure SubmitResponse where
  interview_count : Nat
  score : Int
deriving DecidableEq, Repr

/-- The `POST /submit` handler of the full-pipeline variant.  A mongoose
transaction is modelled by a working snapshot: every sessioned write mutates
the snapshot, `commitTransaction` publishes it, and the `catch` block's
`abortTransaction` discards it, leaving the committed database untouched.
`failsAt` says which awaited store operation throws.  The handler
1. atomically increments the user's counter (inside the session) and uses the
   incremented value as this submission's count (a missing user makes
   `user.count` throw, which the `catch` turns into an abort);
2. upserts the emotion average computed from `analysis_results[i].result[0]`;
3. saves one `Analysis` document per submitted result, tagged with the count;
4. saves the `Interview` document with the order-sorted question-answers;
5. commits.
Any failure lands in `catch`, aborts, and answers with no success payload. -/
def submit (db : DB) (failsAt : SubmitStep → Bool) (uid : Nat)
    (p : SubmitPayload) (today : String) : DB × Option SubmitResponse :=
  if failsAt .incCounter then (db, none) else
  match findUser db.users uid with
  | none => (db, none)
  | some u =>
    let newCount := u.count + 1
    let txn1 : DB := ⟨incUserCount db.users uid, db.analyses, db.interviews,
                      db.emotion_averages⟩
    match headResults p.analysis_results with
    | none => (db, none)
    | some rs =>
      if failsAt .upsertAvg then (db, none) else
      let txn2 : DB := ⟨txn1.users, txn1.analyses, txn1.interviews,
                        upsertEmotionAverage txn1.emotion_averages
                          (computeEmotionAverage rs newCount today)⟩
      if (List.range p.analysis_results.length).any
          (fun i => failsAt (.saveAnalysis i)) then (db, none) else
      let txn3 : DB := ⟨txn2.users,
                        txn2.analyses ++
                          p.analysis_results.map (mkAnalysisDoc uid newCount),
                        txn2.interviews, txn2.emotion_averages⟩
      if failsAt .saveInterview then (db, none) else
      let txn4 : DB := ⟨txn3.users, txn3.analyses,
                        ⟨uid, newCount, sortByOrder p.questions_answers, p.score⟩
                          :: txn3.interviews,
                        txn3.emotion_averages⟩
      if failsAt .commitTxn then (db, none) else
      (txn4, some ⟨newCount, p.score⟩)

/-- The `status` string of the analysis read routes:
`'completed'` or `'in_progress'`. -/
inductive SessionStatus
  | completed
  | inProgress
deriving DecidableEq, Repr

/-- The `average_result` object embedded in the current-session response. -/
structure AverageView where
  face_confidence : Option ℚ
  emotion_scores : EmotionEntries
  date : String
deriving DecidableEq, Repr

/-- The `summary` object of the `GET /current/:interview_count` response. -/
structure CurrentSummary where
  total_analyses : Nat
  required_analyses : Nat
  status : SessionStatus
  average_result : Option AverageView
deriving DecidableEq, Repr

/-- `Analysis.find({ userId, count })`: all stored samples of one user's
session. -/
def analysesFor (db : DB) (uid c : Nat) : List AnalysisDoc :=
  db.analyses.filter (fun a => a.userId == uid && a.count == c)

/-- Insert into a list already sorted by descending `serverTimestamp`. -/
def insertByTsDesc (a : AnalysisDoc) : List AnalysisDoc → List AnalysisDoc
  | [] => [a]
  | x :: xs =>
    if x.serverTimestamp ≤ a.serverTimestamp then a :: x :: xs
    else x :: insertByTsDesc a xs

/-- `.sort({ serverTimestamp: -1 })`: most-recent-sample-first. -/
def tsSortedDesc (l : List AnalysisDoc) : List AnalysisDoc :=
  l.foldr insertByTsDesc []

/-- Insert into a list already sorted by descending `(count, serverTimestamp)`. -/
def insertByCountTsDesc (a : AnalysisDoc) : List AnalysisDoc → List AnalysisDoc
  | [] => [a]
  | x :: xs =>
    if x.count < a.count ∨ (x.count = a.count ∧ x.serverTimestamp ≤ a.serverTimestamp)
    then a :: x :: xs
    else x :: insertByCountTsDesc a xs

/-- `.sort({ count: -1, serverTimestamp: -1 })`. -/
def countTsSortedDesc (l : List AnalysisDoc) : List AnalysisDoc :=
  l.foldr insertByCountTsDesc []

/-- `GET /current/:interview_count`: fetch the user's samples for the count,
sorted most-recent-first, 404 (`none`) when there are none, else a summary
whose `status` is `'completed'` iff `analyses.length >= 6`, together with the
(user-independent) emotion-average row for that count. -/
def getCurrentAnalysis (db : DB) (uid c : Nat) : Option CurrentSummary :=
  let analyses := tsSortedDesc (analysesFor db uid c)
  if analyses.isEmpty then none
  else
    some ⟨analyses.length, 6,
          if 6 ≤ analyses.length then .completed else .inProgress,
          (findEmotionAverage db.emotion_averages c).map
            (fun r => ⟨r.face_confidence, r.emotion, r.date⟩)⟩

/-- Ascending insertion for the numeric group keys. -/
def insertAsc (n : Nat) : List Nat → List Nat
  | [] => [n]
  | x :: xs => if n ≤ x then n :: x :: xs else x :: insertAsc n xs

/-- The distinct `count` keys of a page, in ascending numeric order —
JavaScript objects enumerate integer-like keys ascending. -/
def distinctCountsAsc (l : List AnalysisDoc) : List Nat :=
  ((l.map (fun a => a.count)).dedup).foldr insertAsc []

/-- One per-session group of the `GET /history` response. -/
structure HistoryGroup where
  count : Nat
  status : SessionStatus
  progress_total : Nat
  progress_required : Nat
deriving DecidableEq, Repr

/-- One group of the history response: the page's samples of one count, with
`status` derived from the number of that count's samples on the page. -/
def mkHistoryGroup (pl : List AnalysisDoc) (c : Nat) : HistoryGroup :=
  let g := pl.filter (fun a => a.count == c)
  ⟨c, if 6 ≤ g.length then .completed else .inProgress, g.length, 6⟩

/-- `GET /history` without a date filter: fetch the user's samples sorted by
`(count desc, serverTimestamp desc)`, paginate with `skip`/`limit`, group the
page by `count`, and derive each group's `status` from the number of samples
of that count *on the page* (`analyses.length >= 6`). -/
def historyGroups (db : DB) (uid page limit : Nat) : List HistoryGroup :=
  let sorted := countTsSortedDesc (db.analyses.filter (fun a => a.userId == uid))
  let pageList := (sorted.drop ((page - 1) * limit)).take limit
  (distinctCountsAsc pageList).map (mkHistoryGroup pageList)

/-- A user document of the account-deletion route variant whose `Analysis`
schema carries a `user_id` field: `_id`, the stored credential (the bcrypt
comparison is modelled as equality with the stored value), and the counter. -/
structure LegacyUserDoc where
  id : Nat
  password : String
  count : Nat
deriving DecidableEq, Repr

/-- An analysis document of that variant, keyed by `user_id` —
the field the `DELETE /account` filter `{ user_id: req.user.user_id }`
matches on. -/
structure LegacyAnalysisDoc where
  user_id : Nat
  count : Nat
deriving DecidableEq, Repr

/-- A `results` document (user reference and per-user count; the embedded
data is irrelevant to deletion). -/
structure ResultDoc where
  user_id : Nat
  interview_count : Nat
deriving DecidableEq, Repr

/-- The collections visible to the account-deletion route. -/
structure LegacyDB where
  users : List LegacyUserDoc
  analyses : List LegacyAnalysisDoc
  interviews : List InterviewDoc
  results : List ResultDoc
  emotion_averages : List EmotionAvgDoc
deriving DecidableEq, Repr

/-- `User.findByIdAndDelete(uid)`: remove the (unique) document whose `_id`
matches; first match models by-`_id` uniqueness. -/
def eraseUserById : List LegacyUserDoc → Nat → List LegacyUserDoc
  | [], _ => []
  | u :: us, uid => if u.id = uid then us else u :: eraseUserById us uid

/-- The outcome of `DELETE /account`: 400 for a missing password, a 4xx/5xx
with no deletion when the user cannot be verified, 401 for a wrong password,
or success. -/
inductive DeleteOutcome
  | missingPassword
  | userLookupFailed
  | wrongPassword
  | deleted
deriving DecidableEq, Repr

/-- The `DELETE /account` handler: verify the password, then
`Analysis.deleteMany({ user_id })` followed by `User.findByIdAndDelete`.
No other collection is touched. -/
def deleteAccount (db : LegacyDB) (uid : Nat) (password : Option String) :
    LegacyDB × DeleteOutcome :=
  match password with
  | none => (db, .missingPassword)
  | some pw =>
    match db.users.find? (fun u => u.id == uid) with
    | none => (db, .userLookupFailed)
    | some u =>
      if u.password ≠ pw then (db, .wrongPassword)
      else
        (⟨eraseUserById db.users uid,
          db.analyses.filter (fun a => !(a.user_id == uid)),
          db.interviews, db.results, db.emotion_averages⟩, .deleted)

/-- Modelled from the spec: the repository declares the `Result` schema
(three scored question-answers plus a required `mean_score`) and the
result read routes, but no handler under `src/` computes or checks a mean
score; the Session Record Builder's step 3 — `server_mean_score =
round(mean(score_1, score_2, score_3), 1)` with a `0.1` absolute tolerance
against a client-declared `mean_score`, failing with
`MeanScoreMismatchError` — is modelled here from the spec's words. -/
inductive BuilderError
  | InvalidOrderError
  | InvalidScoreError
  | MeanScoreMismatchError
deriving DecidableEq, Repr

/-- Modelled from the spec: the server-side mean of the three per-question
scores, rounded to 1 decimal place. -/
def serverMeanScore (s1 s2 s3 : Int) : ℚ :=
  roundTo 1 (((s1 : ℚ) + (s2 : ℚ) + (s3 : ℚ)) / 3)

/-- Modelled from the spec: reconcile an optionally client-declared
`mean_score` with the server value; a deviation of more than `0.1` (absolute,
boundary-inclusive on `0.1` itself) fails with `MeanScoreMismatchError`
before any record is built or persisted. -/
def checkMeanScore (s1 s2 s3 : Int) (client : Option ℚ) :
    Except BuilderError ℚ :=
  let m := serverMeanScore s1 s2 s3
  match client with
  | none => .ok m
  | some c => if |c - m| ≤ 1 / 10 then .ok m else .error .MeanScoreMismatchError

/-- An emotion object with all seven keys present. -/
def fullEmotion (a d f h n sa su : ℚ) : EmotionEntries :=
  ⟨some a, some d, some f, some h, some n, some sa, some su⟩

/-- The six swagger-example samples of the submission endpoint, with
confidences `[0.98, 0.99, 0.97, 0.98, 0.98, 0.99]`. -/
def confSamples : List FaceResult :=
  [⟨49/50, fullEmotion (1/50) (1/100) (1/100) (3/20) (3/4) (3/100) (3/100)⟩,
   ⟨99/100, fullEmotion (1/100) (1/100) (1/100) (13/20) (7/25) (1/50) (1/50)⟩,
   ⟨97/100, fullEmotion (1/50) (1/100) (1/50) (1/5) (7/10) (3/100) (1/50)⟩,
   ⟨49/50, fullEmotion (1/100) (1/100) (1/100) (11/20) (19/50) (1/50) (1/50)⟩,
   ⟨49/50, fullEmotion (1/50) (1/100) (1/100) (1/4) (13/20) (3/100) (3/100)⟩,
   ⟨99/100, fullEmotion (1/100) (1/100) (1/100) (3/5) (33/100) (1/50) (1/50)⟩]

/-- A sample with all seven keys, `happy = 0.4`. -/
def keyedSample : FaceResult :=
  ⟨49/50, fullEmotion (1/10) (1/10) (1/10) (2/5) (1/10) (1/10) (1/10)⟩

/-- The same sample with the `happy` key missing from its emotion object. -/
def unkeyedSample : FaceResult :=
  ⟨49/50, ⟨some (1/10), some (1/10), some (1/10), none,
           some (1/10), some (1/10), some (1/10)⟩⟩

/-- A sample whose constant emotion vector has `angry = 0.0005`, a value with
more than three decimal places. -/
def fineSample : FaceResult :=
  ⟨49/50, fullEmotion (1/2000) (1/100) (1/100) (3/5) (33/100) (1/50) (1/50)⟩

/-- A database holding six stored samples (one complete session, count 2) of
user 1, used against the paginated history route. -/
def pagedDB : DB :=
  ⟨[⟨1, 2⟩],
   [⟨1, 2, 1, []⟩, ⟨1, 2, 2, []⟩, ⟨1, 2, 3, []⟩,
    ⟨1, 2, 4, []⟩, ⟨1, 2, 5, []⟩, ⟨1, 2, 6, []⟩],
   [], []⟩

/-- A database holding three stored samples for session 1 of user 1. -/
def partialDB : DB :=
  ⟨[⟨1, 1⟩], [⟨1, 1, 1, []⟩, ⟨1, 1, 2, []⟩, ⟨1, 1, 3, []⟩], [], []⟩

/-- A one-user database with no session data yet. -/
def freshDB : DB := ⟨[⟨1, 0⟩], [], [], []⟩

/-- A well-formed submission payload: three ordered question-answers, a score,
and two analysis results. -/
def payloadW : SubmitPayload :=
  ⟨[⟨"q1", "a1", 1⟩, ⟨"q2", "a2", 2⟩, ⟨"q3", "a3", 3⟩], 85,
   [⟨10, [keyedSample]⟩, ⟨20, [keyedSample]⟩]⟩

/-- A payload with an empty `analysis_results` array. -/
def emptyResultsPayload : SubmitPayload :=
  ⟨[⟨"q1", "a1", 1⟩, ⟨"q2", "a2", 2⟩, ⟨"q3", "a3", 3⟩], 85, []⟩

/-- Two distinct emotion-average documents for the same session count 2, as
two different users' submissions would build them. -/
def avgDocA : EmotionAvgDoc := ⟨2, "2024-03-12", some (49/50), EmotionEntries.empty, 6⟩

/-- See `avgDocA`. -/
def avgDocB : EmotionAvgDoc := ⟨2, "2024-03-13", some (1/2), EmotionEntries.empty, 6⟩

/-- A database in which users 1 and 7 both have samples for count 2 and the
emotion-average collection holds the result of user 7's later upsert. -/
def sharedCountDB : DB :=
  ⟨[⟨1, 2⟩, ⟨7, 2⟩], [⟨1, 2, 5, []⟩, ⟨7, 2, 9, []⟩], [],
   upsertEmotionAverage (upsertEmotionAverage [] avgDocA) avgDocB⟩

/-- A legacy database with two users and data in every collection. -/
def legacyDB : LegacyDB :=
  ⟨[⟨1, "pw1", 2⟩, ⟨2, "pw2", 1⟩],
   [⟨1, 1⟩, ⟨1, 2⟩, ⟨2, 1⟩],
   [⟨1, 1, [], 80⟩, ⟨2, 1, [], 70⟩],
   [⟨1, 1⟩, ⟨2, 1⟩],
   [⟨1, "2024-01-01", some (1/2), EmotionEntries.empty, 6⟩]⟩

theorem totalConfidence_cons (s : FaceResult) (l : List FaceResult) :
    totalConfidence (s :: l) = s.face_confidence + totalConfidence l := by
  have key : ∀ (l : List FaceResult) (acc : ℚ),
      l.foldl (fun a r => a + r.face_confidence) acc =
        acc + l.foldl (fun a r => a + r.face_confidence) 0 := by
    intro l
    induction l with
    | nil => intro acc; simp
    | cons x xs ih =>
      intro acc
      simp only [List.foldl_cons]
      rw [ih (acc + x.face_confidence), ih (0 + x.face_confidence)]
      ring
  simp only [totalConfidence, List.foldl_cons]
  rw [key l (0 + s.face_confidence)]
  ring

theorem totalConfidence_eq_sum (l : List FaceResult) :
    totalConfidence l = (l.map (fun s => s.face_confidence)).sum := by
  induction l with
  | nil => rfl
  | cons s xs ih => rw [totalConfidence_cons, ih]; simp

theorem get_empty (k : EmotionKey) : EmotionEntries.empty.get k = none := by
  cases k <;> rfl

theorem get_accumEmotions (acc e : EmotionEntries) (k : EmotionKey) :
    (accumEmotions acc e).get k = addEntry (acc.get k) (e.get k) := by
  cases k <;> rfl

theorem get_averageEntries (e : EmotionEntries) (n : Nat) (k : EmotionKey) :
    (averageEntries e n).get k = (e.get k).map (fun t => roundTo 3 (t / (n : ℚ))) := by
  cases k <;> rfl

theorem get_currentEmotions (samples : List FaceResult) (k : EmotionKey) :
    (currentEmotions samples).get k =
      (samples.map (fun s => s.emotion.get k)).foldl addEntry none := by
  have key : ∀ (l : List FaceResult) (acc : EmotionEntries),
      (l.foldl (fun a s => accumEmotions a s.emotion) acc).get k =
        (l.map (fun s => s.emotion.get k)).foldl addEntry (acc.get k) := by
    intro l
    induction l with
    | nil => intro acc; rfl
    | cons x xs ih =>
      intro acc
      simp only [List.foldl_cons, List.map_cons]
      rw [ih (accumEmotions acc x.emotion), get_accumEmotions]
  simpa [currentEmotions, get_empty] using key samples EmotionEntries.empty

theorem sum_getD_of_all_isNone (l : List (Option ℚ)) (h : l.all Option.isNone = true) :
    (l.map (fun o => o.getD 0)).sum = 0 := by
  induction l with
  | nil => rfl
  | cons x xs ih =>
    simp only [List.all_cons, Bool.and_eq_true] at h
    rcases h with ⟨hx, hxs⟩
    cases x with
    | none => simpa using ih hxs
    | some v => simp at hx

theorem foldl_addEntry_char (l : List (Option ℚ)) : ∀ acc : Option ℚ,
    l.foldl addEntry acc =
      if l.all Option.isNone = true then acc
      else some (acc.getD 0 + (l.map (fun o => o.getD 0)).sum) := by
  induction l with
  | nil => intro acc; simp
  | cons x xs ih =>
    intro acc
    simp only [List.foldl_cons, List.all_cons, List.map_cons, List.sum_cons]
    cases x with
    | none =>
      rw [ih (addEntry acc none)]
      by_cases hxs : xs.all Option.isNone = true
      · simp [hxs, addEntry]
      · simp [hxs, addEntry]
    | some v =>
      rw [ih (addEntry acc (some v))]
      by_cases hxs : xs.all Option.isNone = true
      · simp [hxs, addEntry, sum_getD_of_all_isNone xs hxs]
      · simp only [hxs, addEntry, Bool.false_eq_true, if_false, Option.isNone_some,
          Bool.false_and, Option.getD_some, Option.some.injEq]
        ring

theorem findUser_id_eq (us : List UserDoc) (uid : Nat) (u : UserDoc)
    (h : findUser us uid = some u) : u.id = uid := by
  have := List.find?_some h
  simpa using this

theorem findUser_incUserCount (us : List UserDoc) (uid : Nat) :
    findUser (incUserCount us uid) uid =
      (findUser us uid).map (fun u => ⟨u.id, u.count + 1⟩) := by
  induction us with
  | nil => rfl
  | cons u rest ih =>
    by_cases h : u.id = uid
    · simp [incUserCount, findUser, h]
    · simp only [incUserCount, if_neg h]
      simp only [findUser, List.find?_cons] at ih ⊢
      have hb : (u.id == uid) = false := by simpa using h
      simp [hb, ih]

theorem findEmotionAverage_upsert (rows : List EmotionAvgDoc) (doc : EmotionAvgDoc) :
    findEmotionAverage (upsertEmotionAverage rows doc) doc.count = some doc := by
  induction rows with
  | nil => simp [upsertEmotionAverage, findEmotionAverage]
  | cons r rest ih =>
    by_cases h : r.count = doc.count
    · simp [upsertEmotionAverage, findEmotionAverage, h]
    · have hb : (r.count == doc.count) = false := by simpa using h
      simp [upsertEmotionAverage, findEmotionAverage, h, hb, List.find?_cons] at ih ⊢
      exact ih

theorem upsert_of_notMem (rows : List EmotionAvgDoc) (doc : EmotionAvgDoc)
    (h : ∀ r ∈ rows, r.count ≠ doc.count) :
    upsertEmotionAverage rows doc = rows ++ [doc] := by
  induction rows with
  | nil => rfl
  | cons r rest ih =>
    have hr : r.count ≠ doc.count := h r (by simp)
    simp only [upsertEmotionAverage, if_neg hr, List.cons_append]
    rw [ih (fun x hx => h x (by simp [hx]))]

theorem upsert_replace_last (rows : List EmotionAvgDoc) (a b : EmotionAvgDoc)
    (hab : a.count = b.count)
    (h : ∀ r ∈ rows, r.count ≠ a.count) :
    upsertEmotionAverage (rows ++ [a]) b = rows ++ [b] := by
  induction rows with
  | nil => simp [upsertEmotionAverage, hab]
  | cons r rest ih =>
    have hr : r.count ≠ b.count := by rw [← hab]; exact h r (by simp)
    simp only [List.cons_append, upsertEmotionAverage, if_neg hr]
    exact congrArg (r :: ·) (ih (fun x hx => h x (by simp [hx])))

theorem length_insertByTsDesc (a : AnalysisDoc) (l : List AnalysisDoc) :
    (insertByTsDesc a l).length = l.length + 1 := by
  induction l with
  | nil => rfl
  | cons x xs ih =>
    simp only [insertByTsDesc]
    split
    · simp
    · simp [ih]

theorem length_tsSortedDesc (l : List AnalysisDoc) :
    (tsSortedDesc l).length = l.length := by
  induction l with
  | nil => rfl
  | cons x xs ih =>
    simp only [tsSortedDesc, List.foldr_cons] at ih ⊢
    rw [length_insertByTsDesc, ih]
    rfl

theorem eraseUserById_subset (us : List LegacyUserDoc) (uid : Nat) :
    ∀ u ∈ eraseUserById us uid, u ∈ us := by
  induction us with
  | nil => intro u hu; simp [eraseUserById] at hu
  | cons v rest ih =>
    intro u hu
    simp only [eraseUserById] at hu
    by_cases h : v.id = uid
    · rw [if_pos h] at hu; exact List.mem_cons_of_mem v hu
    · rw [if_neg h] at hu
      rcases List.mem_cons.1 hu with h1 | h1
      · exact h1 ▸ List.mem_cons_self v rest
      · exact List.mem_cons_of_mem v (ih u h1)

theorem eraseUserById_no_uid (us : List LegacyUserDoc) (uid : Nat)
    (hnodup : (us.map (fun u => u.id)).Nodup) :
    ∀ u ∈ eraseUserById us uid, u.id ≠ uid := by
  induction us with
  | nil => intro u hu; simp [eraseUserById] at hu
  | cons v rest ih =>
    intro u hu
    simp only [List.map_cons, List.nodup_cons] at hnodup
    rcases hnodup with ⟨hv, hrest⟩
    simp only [eraseUserById] at hu
    by_cases h : v.id = uid
    · rw [if_pos h] at hu
      intro huid
      apply hv
      rw [h, ← huid]
      exact List.mem_map_of_mem (fun u => u.id) hu
    · rw [if_neg h] at hu
      rcases List.mem_cons.1 hu with h1 | h1
      · rw [h1]; exact h
      · exact ih hrest u h1

theorem eraseUserById_keeps (us : List LegacyUserDoc) (uid : Nat) :
    ∀ u ∈ us, u.id ≠ uid → u ∈ eraseUserById us uid := by
  induction us with
  | nil => intro u hu; simp at hu
  | cons v rest ih =>
    intro u hu hne
    simp only [eraseUserById]
    by_cases h : v.id = uid
    · rw [if_pos h]
      rcases List.mem_cons.1 hu with h1 | h1
      · exact absurd (h1 ▸ h) hne
      · exact h1
    · rw [if_neg h]
      rcases List.mem_cons.1 hu with h1 | h1
      · exact h1 ▸ List.mem_cons_self v _
      · exact List.mem_cons_of_mem v (ih u h1 hne)

/-- C1: if any awaited step of the `/submit` transaction fails — the user
counter increment, the emotion-average upsert, any analysis-sample write, the
interview write, or the commit itself — the `catch` block aborts the
transaction and the committed database is exactly what it was before the
request: no partial session state becomes visible and the user's counter is
not advanced. -/
theorem submit_abort_leaves_db_unchanged (db : DB) (failsAt : SubmitStep → Bool)
    (uid : Nat) (p : SubmitPayload) (today : String)
    (h : (submit db failsAt uid p today).2 = none) :
    (submit db failsAt uid p today).1 = db := by
  revert h
  unfold submit
  repeat' split
  all_goals intro h
  all_goals simp_all

/-- Witness for C1: a concrete submission whose first store operation fails
leaves the concrete database untouched. -/
theorem submit_abort_witness :
    (submit freshDB (fun _ => true) 1 payloadW "2024-03-12").2 = none ∧
    (submit freshDB (fun _ => true) 1 payloadW "2024-03-12").1 = freshDB :=
  ⟨rfl, submit_abort_leaves_db_unchanged freshDB (fun _ => true) 1 payloadW
    "2024-03-12" rfl⟩

/-- C6, counterexample: the aggregation itself does not fail on an empty
sample list.  `updateEmotionAverage` has no emptiness check — on `[]` it
computes `0 / 0` (`NaN`, modelled `none`) and still builds an upsert document,
so the claimed `EmptyInputError` does not exist in the code. -/
theorem emptyAggregation_no_failure :
    computeEmotionAverage [] 5 "2024-01-01" =
      ⟨5, "2024-01-01", none, EmotionEntries.empty, 0⟩ := rfl

/-- C6, amended: empty sample lists never reach the aggregation because the
request-validation rule `analysis_results isArray({ min: 1 })` rejects them
(HTTP 400) before the handler runs. -/
theorem emptyList_rejected_by_validation (p : SubmitPayload)
    (h : p.analysis_results = []) : validateSubmission p = false := by
  simp [validateSubmission, h]

/-- Witness for the amended C6 at a concrete payload with an empty
`analysis_results` array. -/
theorem emptyList_rejected_witness : validateSubmission emptyResultsPayload = false :=
  emptyList_rejected_by_validation emptyResultsPayload rfl

/-- C4, counterexample: on the six swagger confidences
`[0.98, 0.99, 0.97, 0.98, 0.98, 0.99]` the code's `avg_confidence` is
`Number((5.89 / 6).toFixed(2)) = 0.98`, not the `0.982` the claim's
3-decimal rounding would give. -/
theorem avgConfidence_not_three_decimals :
    (computeEmotionAverage confSamples 1 "2024-03-12").face_confidence =
      some (49 / 50) ∧ (49 / 50 : ℚ) ≠ 491 / 500 := by
  constructor
  · show (jsDiv (totalConfidence confSamples) confSamples.length).map (roundTo 2) = _
    norm_num [confSamples, totalConfidence, jsDiv, roundTo]
  · norm_num

/-- C4, amended: for every non-empty sample list `avg_confidence` is the
arithmetic mean of the face confidences rounded to 2 (not 3) decimal places
(`averageConfidence.toFixed(2)`). -/
theorem avgConfidence_two_decimals (samples : List FaceResult) (c : Nat)
    (d : String) (h : samples ≠ []) :
    (computeEmotionAverage samples c d).face_confidence =
      some (roundTo 2 ((samples.map (fun s => s.face_confidence)).sum /
        (samples.length : ℚ))) := by
  have hn : samples.length ≠ 0 := by simpa using h
  show (jsDiv (totalConfidence samples) samples.length).map (roundTo 2) = _
  rw [totalConfidence_eq_sum]
  simp [jsDiv, hn]

/-- Witness for the amended C4 at the six swagger confidences. -/
theorem avgConfidence_two_decimals_witness :
    (computeEmotionAverage confSamples 2 "2024-03-12").face_confidence =
      some (roundTo 2 ((confSamples.map (fun s => s.face_confidence)).sum /
        (confSamples.length : ℚ))) :=
  avgConfidence_two_decimals confSamples 2 "2024-03-12" (by simp [confSamples])

/-- C7, counterexample: a sample whose emotion object is missing the `happy`
key does not make the aggregation fail — the `Object.entries` loop simply
never sees the key, so its average divides the other sample's `0.4` by the
full sample count 2, i.e. the missing value is treated as zero. -/
theorem missingKey_no_failure :
    (computeEmotionAverage [keyedSample, unkeyedSample] 3 "2024-02-02").emotion.happy =
      some (1 / 5) ∧
    (computeEmotionAverage [keyedSample, unkeyedSample] 3 "2024-02-02").total_analyses = 2 := by
  constructor
  · show (averageEntries (currentEmotions [keyedSample, unkeyedSample]) 2).happy = _
    norm_num [averageEntries, currentEmotions, keyedSample, unkeyedSample, fullEmotion,
      accumEmotions, addEntry, EmotionEntries.empty, roundTo]
  · rfl

/-- C7, amended: missing emotion keys are silently tolerated.  A key absent
from every sample stays absent from the average; a key present in at least
one sample is averaged as the sum of the values of the samples that carry it
divided by the *total* sample count — absent occurrences contribute zero, and
no error is ever raised. -/
theorem missingKey_zero_default (samples : List FaceResult) (c : Nat)
    (d : String) (k : EmotionKey) :
    EmotionEntries.get (computeEmotionAverage samples c d).emotion k =
      if (samples.map (fun s => s.emotion.get k)).all Option.isNone = true then none
      else some (roundTo 3
        ((samples.map (fun s => (s.emotion.get k).getD 0)).sum /
          (samples.length : ℚ))) := by
  show EmotionEntries.get (averageEntries (currentEmotions samples) samples.length) k = _
  rw [get_averageEntries, get_currentEmotions, foldl_addEntry_char]
  by_cases hall : (samples.map (fun s => s.emotion.get k)).all Option.isNone = true
  · simp [hall]
  · simp [hall, List.map_map, Function.comp_def]

/-- Witness for the amended C7: the concrete missing-key pair averages
`happy` to `(0.4 + 0) / 2 = 0.2`. -/
theorem missingKey_zero_default_witness :
    EmotionEntries.get
      (computeEmotionAverage [keyedSample, unkeyedSample] 4 "d").emotion .happy =
      some (1 / 5) := by
  rw [missingKey_zero_default]
  norm_num [keyedSample, unkeyedSample, fullEmotion, EmotionEntries.get, roundTo]

/-- C9, counterexample: a constant emotion vector is *not* always preserved by
the aggregation: with `angry = 0.0005` in every sample, the 3-decimal
rounding turns the average into `0.001 ≠ 0.0005`. -/
theorem constVector_not_identity :
    EmotionEntries.get
      (computeEmotionAverage [fineSample, fineSample] 1 "d").emotion .angry =
      some (1 / 1000) ∧ (1 / 1000 : ℚ) ≠ 1 / 2000 := by
  constructor
  · show EmotionEntries.get (averageEntries (currentEmotions [fineSample, fineSample]) 2) .angry = _
    norm_num [averageEntries, currentEmotions, fineSample, fullEmotion, accumEmotions,
      addEntry, EmotionEntries.empty, EmotionEntries.get, roundTo]
  · norm_num

/-- C9, amended: for a constant emotion vector all of whose entries are exact
multiples of `0.001` (so that 3-decimal rounding fixes them), the per-key
average over any positive number of identical samples equals the vector
exactly. -/
theorem constVector_identity_three_decimals (n : Nat) (hn : n ≠ 0) (conf : ℚ)
    (e : EmotionEntries) (v : EmotionKey → ℚ) (c : Nat) (d : String)
    (he : ∀ k, e.get k = some (v k))
    (hround : ∀ k, roundTo 3 (v k) = v k) (k : EmotionKey) :
    EmotionEntries.get
      (computeEmotionAverage (List.replicate n ⟨conf, e⟩) c d).emotion k =
      some (v k) := by
  have hn' : (n : ℚ) ≠ 0 := Nat.cast_ne_zero.mpr hn
  show EmotionEntries.get
      (averageEntries (currentEmotions (List.replicate n ⟨conf, e⟩))
        (List.replicate n (⟨conf, e⟩ : FaceResult)).length) k = _
  rw [get_averageEntries, get_currentEmotions]
  have hmap : (List.replicate n (⟨conf, e⟩ : FaceResult)).map
      (fun s => s.emotion.get k) = List.replicate n (some (v k)) := by
    simp [List.map_replicate, he k]
  rw [hmap, foldl_addEntry_char]
  have hall : (List.replicate n (some (v k))).all Option.isNone = false := by
    cases n with
    | zero => exact absurd rfl hn
    | succ m => simp [List.replicate_succ]
  have hsum : ((List.replicate n (some (v k))).map (fun o => o.getD 0)).sum =
      (n : ℚ) * v k := by
    simp [List.map_replicate, List.sum_replicate, nsmul_eq_mul]
  simp only [hall, Bool.false_eq_true, if_false, Option.getD_none, zero_add,
    Option.map_some', hsum, List.length_replicate]
  have hdiv : (n : ℚ) * (v k / (n : ℚ)) = v k := by field_simp
  rw [mul_div_assoc, hdiv, hround k]

/-- Witness for the amended C9: three identical samples with the swagger
emotion vector (all entries 3-decimal) average to exactly that vector at
`happy`. -/
theorem constVector_identity_witness :
    EmotionEntries.get
      (computeEmotionAverage
        (List.replicate 3 ⟨(49 : ℚ) / 50,
          fullEmotion (1/50) (1/100) (1/100) (3/20) (3/4) (3/100) (3/100)⟩)
        1 "d").emotion .happy = some (3 / 20) :=
  constVector_identity_three_decimals 3 (by decide) ((49 : ℚ) / 50)
    (fullEmotion (1/50) (1/100) (1/100) (3/20) (3/4) (3/100) (3/100))
    (fun k => match k with
      | .angry => (1 : ℚ)/50 | .disgust => 1/100 | .fear => 1/100
      | .happy => 3/20 | .neutral => 3/4 | .sad => 3/100 | .surprise => 3/100)
    1 "d" (fun k => by cases k <;> rfl)
    (fun k => by cases k <;> norm_num [roundTo]) .happy

/-- C2: a fault-free submission for an existing user commits a database in
which the interview record, every analysis-sample record and the
emotion-average record written by the submission all carry the session count
`u.count + 1`, which is exactly the user's counter after its atomic
increment by 1; the response reports the same count. -/
theorem submit_success_consistency (db : DB) (failsAt : SubmitStep → Bool)
    (uid : Nat) (p : SubmitPayload) (today : String) (u : UserDoc)
    (rs : List FaceResult)
    (hf : ∀ s, failsAt s = false)
    (hu : findUser db.users uid = some u)
    (hr : headResults p.analysis_results = some rs) :
    (submit db failsAt uid p today).2 = some ⟨u.count + 1, p.score⟩ ∧
    findUser (submit db failsAt uid p today).1.users uid =
      some ⟨uid, u.count + 1⟩ ∧
    (submit db failsAt uid p today).1.interviews =
      ⟨uid, u.count + 1, sortByOrder p.questions_answers, p.score⟩ ::
        db.interviews ∧
    (submit db failsAt uid p today).1.analyses =
      db.analyses ++ p.analysis_results.map (mkAnalysisDoc uid (u.count + 1)) ∧
    (∀ a ∈ p.analysis_results.map (mkAnalysisDoc uid (u.count + 1)),
        a.count = u.count + 1) ∧
    findEmotionAverage (submit db failsAt uid p today).1.emotion_averages
      (u.count + 1) = some (computeEmotionAverage rs (u.count + 1) today) := by
  have hs : submit db failsAt uid p today =
      (⟨incUserCount db.users uid,
        db.analyses ++ p.analysis_results.map (mkAnalysisDoc uid (u.count + 1)),
        ⟨uid, u.count + 1, sortByOrder p.questions_answers, p.score⟩ ::
          db.interviews,
        upsertEmotionAverage db.emotion_averages
          (computeEmotionAverage rs (u.count + 1) today)⟩,
       some ⟨u.count + 1, p.score⟩) := by
    simp [submit, hu, hr, hf]
  rw [hs]
  refine ⟨rfl, ?_, rfl, rfl, ?_, ?_⟩
  · show findUser (incUserCount db.users uid) uid = _
    rw [findUser_incUserCount, hu]
    simp [findUser_id_eq db.users uid u hu]
  · intro a ha
    simp only [List.mem_map] at ha
    obtain ⟨x, _, rfl⟩ := ha
    rfl
  · exact findEmotionAverage_upsert db.emotion_averages
      (computeEmotionAverage rs (u.count + 1) today)

/-- Witness for C2 at a concrete fault-free submission by user 1 (counter 0):
the response and the new user counter both carry count 1. -/
theorem submit_success_witness :
    (submit freshDB (fun _ => false) 1 payloadW "2024-03-12").2 = some ⟨1, 85⟩ ∧
    findUser (submit freshDB (fun _ => false) 1 payloadW "2024-03-12").1.users 1 =
      some ⟨1, 1⟩ :=
  ⟨(submit_success_consistency freshDB (fun _ => false) 1 payloadW "2024-03-12"
      ⟨1, 0⟩ [keyedSample, keyedSample] (fun _ => rfl) rfl rfl).1,
   (submit_success_consistency freshDB (fun _ => false) 1 payloadW "2024-03-12"
      ⟨1, 0⟩ [keyedSample, keyedSample] (fun _ => rfl) rfl rfl).2.1⟩

/-- C3 (modelled from the spec, no mean-score code exists under `src/`):
the mean-score check accepts a client-declared `mean_score` exactly when it
is within an absolute, boundary-inclusive `0.1` of the server mean (the
3-score mean rounded to 1 decimal), and otherwise fails with
`MeanScoreMismatchError`; scores `[74, 82, 68]` give server mean `74.7`,
a declared `74.8` (difference exactly `0.1`) is accepted, and a declared
`75.0` is rejected. -/
theorem meanScore_tolerance_boundary :
    (∀ (s1 s2 s3 : Int) (c : ℚ),
        checkMeanScore s1 s2 s3 (some c) = .ok (serverMeanScore s1 s2 s3) ↔
          |c - serverMeanScore s1 s2 s3| ≤ 1 / 10) ∧
    serverMeanScore 74 82 68 = 747 / 10 ∧
    checkMeanScore 74 82 68 (some (374 / 5)) = .ok (747 / 10) ∧
    checkMeanScore 74 82 68 (some 75) = .error .MeanScoreMismatchError := by
  have hiff : ∀ (s1 s2 s3 : Int) (c : ℚ),
      checkMeanScore s1 s2 s3 (some c) = .ok (serverMeanScore s1 s2 s3) ↔
        |c - serverMeanScore s1 s2 s3| ≤ 1 / 10 := by
    intro s1 s2 s3 c
    show (if |c - serverMeanScore s1 s2 s3| ≤ 1 / 10 then
        Except.ok (serverMeanScore s1 s2 s3)
      else Except.error BuilderError.MeanScoreMismatchError) =
        Except.ok (serverMeanScore s1 s2 s3) ↔
      |c - serverMeanScore s1 s2 s3| ≤ 1 / 10
    split_ifs with h
    · exact iff_of_true rfl h
    · exact iff_of_false (by simp) h
  have hmean : serverMeanScore 74 82 68 = 747 / 10 := by
    norm_num [serverMeanScore, roundTo]
  refine ⟨hiff, hmean, ?_, ?_⟩
  · have hok := (hiff 74 82 68 (374 / 5)).mpr
      (by rw [hmean]; rw [abs_le]; norm_num)
    rw [hmean] at hok
    exact hok
  · show (if |(75 : ℚ) - serverMeanScore 74 82 68| ≤ 1 / 10 then
        Except.ok (serverMeanScore 74 82 68)
      else Except.error BuilderError.MeanScoreMismatchError) =
        Except.error BuilderError.MeanScoreMismatchError
    rw [if_neg]
    rw [hmean, abs_le]
    norm_num

/-- Witness for C3 at the boundary: `74.8` against server mean `74.7`. -/
theorem meanScore_tolerance_witness :
    checkMeanScore 74 82 68 (some (374 / 5)) =
      .ok (serverMeanScore 74 82 68) :=
  (meanScore_tolerance_boundary.1 74 82 68 (374 / 5)).mpr
    (by rw [abs_le]; norm_num [serverMeanScore, roundTo])

theorem findEmotionAverage_append_last (rows : List EmotionAvgDoc)
    (b : EmotionAvgDoc) (c : Nat) (hb : b.count = c)
    (h0 : ∀ r ∈ rows, r.count ≠ c) :
    findEmotionAverage (rows ++ [b]) c = some b := by
  unfold findEmotionAverage
  induction rows with
  | nil => simp [hb]
  | cons r rest ih =>
    have hr : (r.count == c) = false := by
      simpa using h0 r (by simp)
    simp only [List.cons_append, List.find?_cons, hr]
    exact ih (fun x hx => h0 x (by simp [hx]))

theorem mkHistoryGroup_status (pl : List AnalysisDoc) (c : Nat) :
    (mkHistoryGroup pl c).status = .completed ↔
      6 ≤ (mkHistoryGroup pl c).progress_total := by
  show (if 6 ≤ (pl.filter (fun a => a.count == c)).length then
      SessionStatus.completed else .inProgress) = .completed ↔
    6 ≤ (pl.filter (fun a => a.count == c)).length
  split_ifs with h6
  · simp [h6]
  · simp [h6]

theorem getCurrentAnalysis_average (db : DB) (uid c : Nat) (v : CurrentSummary)
    (h : getCurrentAnalysis db uid c = some v) :
    v.average_result = (findEmotionAverage db.emotion_averages c).map
      (fun r => ⟨r.face_confidence, r.emotion, r.date⟩) := by
  simp only [getCurrentAnalysis] at h
  by_cases he : (tsSortedDesc (analysesFor db uid c)).isEmpty
  · rw [if_pos he] at h
    exact absurd h (by simp)
  · rw [if_neg he] at h
    injection h with h
    rw [← h]

/-- C5: the emotion-average collection is keyed by `session_count` alone.
If user A's submission upserts a document for count `c` and user B's later
submission upserts another document for the same `c`, exactly one row for `c`
exists afterwards and it holds B's averages; the current-session lookup for
`c` (which filters by `count` only) returns that single shared row, and two
different users asking the current-session route for `c` see the same
`average_result`. -/
theorem emotionAverage_shared_row (rows : List EmotionAvgDoc)
    (a b : EmotionAvgDoc) (c : Nat) (ha : a.count = c) (hb : b.count = c)
    (h0 : ∀ r ∈ rows, r.count ≠ c) :
    ((upsertEmotionAverage (upsertEmotionAverage rows a) b).filter
        (fun r => r.count == c) = [b]) ∧
    findEmotionAverage (upsertEmotionAverage (upsertEmotionAverage rows a) b) c =
      some b ∧
    (∀ (db : DB) (uidA uidB : Nat) (vA vB : CurrentSummary),
        db.emotion_averages =
          upsertEmotionAverage (upsertEmotionAverage rows a) b →
        getCurrentAnalysis db uidA c = some vA →
        getCurrentAnalysis db uidB c = some vB →
        vA.average_result = some ⟨b.face_confidence, b.emotion, b.date⟩ ∧
        vA.average_result = vB.average_result) := by
  have h0a : ∀ r ∈ rows, r.count ≠ a.count := by
    intro r hr
    rw [ha]
    exact h0 r hr
  have erows : upsertEmotionAverage (upsertEmotionAverage rows a) b =
      rows ++ [b] := by
    rw [upsert_of_notMem rows a h0a,
        upsert_replace_last rows a b (by rw [ha, hb]) h0a]
  have hfind : findEmotionAverage (rows ++ [b]) c = some b :=
    findEmotionAverage_append_last rows b c hb h0
  refine ⟨?_, ?_, ?_⟩
  · rw [erows, List.filter_append]
    have h1 : rows.filter (fun r => r.count == c) = [] := by
      rw [List.filter_eq_nil_iff]
      intro r hr
      simpa using h0 r hr
    rw [h1]
    simp [hb]
  · rw [erows]
    exact hfind
  · intro db uidA uidB vA vB hdb hA hB
    have hAavg := getCurrentAnalysis_average db uidA c vA hA
    have hBavg := getCurrentAnalysis_average db uidB c vB hB
    rw [hdb, erows, hfind] at hAavg hBavg
    exact ⟨hAavg, by rw [hAavg, hBavg]⟩

/-- Witness for C5: two concrete upserts for count 2 into an initially empty
collection leave exactly one row, user B's. -/
theorem emotionAverage_shared_row_witness :
    ((upsertEmotionAverage (upsertEmotionAverage [] avgDocA) avgDocB).filter
        (fun r => r.count == 2) = [avgDocB]) ∧
    findEmotionAverage
        (upsertEmotionAverage (upsertEmotionAverage [] avgDocA) avgDocB) 2 =
      some avgDocB :=
  ⟨(emotionAverage_shared_row [] avgDocA avgDocB 2 rfl rfl (by simp)).1,
   (emotionAverage_shared_row [] avgDocA avgDocB 2 rfl rfl (by simp)).2.1⟩

/-- C8, counterexample: the history route derives `status` from the samples
on the current page, not from the stored count.  User 1 has 6 stored samples
for session 2 (a completed session), yet with `limit = 4` page 1 reports the
session as `in_progress` with `progress.total = 4`. -/
theorem history_status_pagination_counterexample :
    historyGroups pagedDB 1 1 4 = [⟨2, .inProgress, 4, 6⟩] ∧
    (analysesFor pagedDB 1 2).length = 6 := by
  constructor <;> rfl

/-- C8, amended: the per-session `status` is `'completed'` exactly when the
query under consideration returned at least 6 samples for that session.  For
the current-session route that is the full stored count (so 3 of 6 stored
samples give `in_progress`); for the paginated history route it is the number
of that session's samples on the requested page, which can undercount a
session split across pages. -/
theorem session_status_amended :
    (∀ (db : DB) (uid c : Nat) (v : CurrentSummary),
        getCurrentAnalysis db uid c = some v →
        ((v.status = .completed ↔ 6 ≤ (analysesFor db uid c).length) ∧
         ((analysesFor db uid c).length = 3 → v.status = .inProgress))) ∧
    (∀ (db : DB) (uid page limit : Nat) (g : HistoryGroup),
        g ∈ historyGroups db uid page limit →
        (g.status = .completed ↔ 6 ≤ g.progress_total)) := by
  constructor
  · intro db uid c v h
    simp only [getCurrentAnalysis] at h
    by_cases he : (tsSortedDesc (analysesFor db uid c)).isEmpty
    · rw [if_pos he] at h
      exact absurd h (by simp)
    · rw [if_neg he] at h
      injection h with h
      rw [← h]
      show ((if 6 ≤ (tsSortedDesc (analysesFor db uid c)).length then
              SessionStatus.completed else .inProgress) = .completed ↔ _) ∧ _
      rw [length_tsSortedDesc]
      constructor
      · by_cases h6 : 6 ≤ (analysesFor db uid c).length
        · simp [h6]
        · simp [h6]
      · intro h3
        have h6 : ¬ 6 ≤ (analysesFor db uid c).length := by omega
        simp [h6]
  · intro db uid page limit g hg
    simp only [historyGroups, List.mem_map] at hg
    obtain ⟨c, hc, rfl⟩ := hg
    exact mkHistoryGroup_status _ c

/-- Witness for the amended C8: a session with 3 of 6 stored samples reports
`in_progress` on the current-session route. -/
theorem session_status_witness :
    getCurrentAnalysis partialDB 1 1 = some ⟨3, 6, .inProgress, none⟩ ∧
    (⟨3, 6, SessionStatus.inProgress, none⟩ : CurrentSummary).status =
      .inProgress :=
  ⟨rfl,
   (session_status_amended.1 partialDB 1 1 ⟨3, 6, .inProgress, none⟩ rfl).2 rfl⟩

/-- C10: account deletion with a verified password removes exactly the
requesting user's `User` document and the `Analysis` documents whose
`user_id` matches that user; every `Interview`, `Result` and `EmotionAverage`
document — including the deleted user's — and every other user's documents
remain unchanged. -/
theorem deleteAccount_exact_frame (db : LegacyDB) (uid : Nat)
    (pw : Option String)
    (hnodup : (db.users.map (fun u => u.id)).Nodup)
    (h : (deleteAccount db uid pw).2 = .deleted) :
    (deleteAccount db uid pw).1.interviews = db.interviews ∧
    (deleteAccount db uid pw).1.results = db.results ∧
    (deleteAccount db uid pw).1.emotion_averages = db.emotion_averages ∧
    (∀ a : LegacyAnalysisDoc,
        a ∈ (deleteAccount db uid pw).1.analyses ↔
          (a ∈ db.analyses ∧ a.user_id ≠ uid)) ∧
    (∀ u ∈ (deleteAccount db uid pw).1.users, u.id ≠ uid) ∧
    (∀ u ∈ db.users, u.id ≠ uid → u ∈ (deleteAccount db uid pw).1.users) := by
  cases pw with
  | none => simp [deleteAccount] at h
  | some s =>
    cases hfind : db.users.find? (fun u => u.id == uid) with
    | none => simp [deleteAccount, hfind] at h
    | some u0 =>
      by_cases hpw : u0.password ≠ s
      · simp [deleteAccount, hfind, hpw] at h
      · have hres : deleteAccount db uid (some s) =
            (⟨eraseUserById db.users uid,
              db.analyses.filter (fun a => !(a.user_id == uid)),
              db.interviews, db.results, db.emotion_averages⟩, .deleted) := by
          simp [deleteAccount, hfind, hpw]
        rw [hres]
        refine ⟨rfl, rfl, rfl, ?_, ?_, ?_⟩
        · intro a
          simp [List.mem_filter]
        · exact eraseUserById_no_uid db.users uid hnodup
        · exact eraseUserById_keeps db.users uid

/-- Witness for C10 at a concrete two-user database: deleting user 1's account
succeeds, interviews are untouched, and no remaining user document has id 1. -/
theorem deleteAccount_frame_witness :
    (deleteAccount legacyDB 1 (some "pw1")).2 = .deleted ∧
    (deleteAccount legacyDB 1 (some "pw1")).1.interviews = legacyDB.interviews ∧
    (∀ u ∈ (deleteAccount legacyDB 1 (some "pw1")).1.users, u.id ≠ 1) :=
  ⟨rfl,
   (deleteAccount_exact_frame legacyDB 1 (some "pw1") (by decide) rfl).1,
   (deleteAccount_exact_frame legacyDB 1 (some "pw1") (by decide) rfl).2.2.2.2.1⟩

end ClearMind
